import Mathlib

/-!
Verification of the batch Telegram media downloader
(`media_downloader.py`, `media_handler.py`) against its
natural-language specification.

The Python code is shallowly embedded: each Python function becomes a
Lean function of the same name (modulo the leading underscore, which
Lean cannot use), exceptions become an explicit `PyErr` propagated
through `Except` / tagged results, and the process-wide mutable state
(`StaticInfo.FAILED_IDS`, download side effects, sleeps) is threaded
explicitly through a `TraceState` record.  External collaborators (the
pyrogram client, the filesystem, `utils.file_management`, `datetime`)
are an `Env` record of opaque functions, following the spec's
"capability surface" for the Message Source.
-/

/-- Python exception classes relevant to `download_media`'s handlers:
`pyrogram.errors...BadRequest` (the stale-reference class), `TypeError`
(the transient/timeout handler's class), and the remaining exception
kinds which all fall to the generic `except Exception` handler. -/
inductive PyErr where
  | badRequest
  | typeError
  | attributeError
  | indexError
  | valueError
  | other (name : String)
deriving DecidableEq, Repr

/-- A `pyrogram.types.Thumbnail` as far as the code observes it: an
opaque downloadable object. -/
structure Thumb where
  fileId : String
deriving DecidableEq, Repr

/-- The media attachment tagged union (spec §3 MediaAttachment), with the
attributes the pyrogram media classes actually expose and the code
actually reads.  A pyrogram `Photo` has no `mime_type` attribute and no
`file_name` attribute (the spec: "a MIME-type string (absent for
photo)"); its `date` is optional.  Only `Video` has `thumbs`, which may
be `None`. -/
inductive MediaObj where
  | audio (mimeType : String) (date : Nat) (fileName : Option String)
      (fileUniqueId : String) (fileId : String)
  | document (mimeType : String) (date : Nat) (fileName : Option String)
      (fileUniqueId : String) (fileId : String)
  | photo (date : Option Nat) (fileUniqueId : String) (fileId : String)
  | video (mimeType : String) (date : Nat) (fileName : Option String)
      (fileUniqueId : String) (fileId : String) (thumbs : Option (List Thumb))
  | voice (mimeType : String) (date : Nat) (fileUniqueId : String) (fileId : String)
deriving DecidableEq, Repr

/-- Plain attribute access `media_obj.mime_type`: raises `AttributeError`
on a photo, which carries no such attribute. -/
def MediaObj.mimeTypeAttr : MediaObj → Except PyErr String
  | .audio mt _ _ _ _ => .ok mt
  | .document mt _ _ _ _ => .ok mt
  | .photo _ _ _ => .error .attributeError
  | .video mt _ _ _ _ _ => .ok mt
  | .voice mt _ _ _ => .ok mt

/-- Attribute access `media_obj.date`: every variant has the attribute;
only a photo's value may be `None`. -/
def MediaObj.dateAttr : MediaObj → Option Nat
  | .audio _ d _ _ _ => some d
  | .document _ d _ _ _ => some d
  | .photo d _ _ => d
  | .video _ d _ _ _ _ => some d
  | .voice _ d _ _ => some d

/-- `getattr(media_obj, "file_name", None)`: photos and voices have no
`file_name` attribute, so the `getattr` default `None` is returned. -/
def MediaObj.fileNameAttr : MediaObj → Option String
  | .audio _ _ fn _ _ => fn
  | .document _ _ fn _ _ => fn
  | .photo _ _ _ => none
  | .video _ _ fn _ _ _ => fn
  | .voice _ _ _ _ => none

/-- Attribute access `media_obj.file_unique_id` (present on all variants). -/
def MediaObj.fileUniqueIdAttr : MediaObj → String
  | .audio _ _ _ u _ => u
  | .document _ _ _ u _ => u
  | .photo _ u _ => u
  | .video _ _ _ u _ _ => u
  | .voice _ _ u _ => u

/-- Attribute access `media_obj.file_id` (present on all variants). -/
def MediaObj.fileIdAttr : MediaObj → String
  | .audio _ _ _ _ f => f
  | .document _ _ _ _ f => f
  | .photo _ _ f => f
  | .video _ _ _ _ f _ => f
  | .voice _ _ _ f => f

/-- Attribute access `media_obj.thumbs`: only videos have the attribute
(value possibly `None`); on every other variant it raises
`AttributeError`. -/
def MediaObj.thumbsAttr : MediaObj → Except PyErr (Option (List Thumb))
  | .video _ _ _ _ _ th => .ok th
  | _ => .error .attributeError

/-- A `pyrogram.types.Message` as the code observes it: its id, its chat
id, and the five media attributes the downloader probes
(`message.audio`, `message.document`, `message.photo`, `message.video`,
`message.voice`). -/
structure Message where
  message_id : Nat
  chat_id : Int
  audio : Option MediaObj := none
  document : Option MediaObj := none
  photo : Option MediaObj := none
  video : Option MediaObj := none
  voice : Option MediaObj := none
deriving DecidableEq, Repr

/-- `message.media is None`: in pyrogram, `message.media` is set exactly
when one of the media attributes is set (restricted here to the five
variants the downloader supports). -/
def Message.mediaIsNone (m : Message) : Bool :=
  m.audio.isNone && m.document.isNone && m.photo.isNone
    && m.video.isNone && m.voice.isNone

/-- `getattr(message, _type, None)` for the media-type strings the
configuration may contain. -/
def Message.getSlot (m : Message) (t : String) : Option MediaObj :=
  if t = "audio" then m.audio
  else if t = "document" then m.document
  else if t = "photo" then m.photo
  else if t = "video" then m.video
  else if t = "voice" then m.voice
  else none

/-- The three shapes of `client.download_media` call the code issues:
whole-message download, download by bare file id (the photo branch), and
thumbnail-object download (the video branch). -/
inductive DCall where
  | message (m : Message) (fileName : String)
  | fileId (fid : String) (fileName : String)
  | thumb (t : Thumb) (fileName : String)
deriving DecidableEq, Repr

/-- The external capabilities the code calls into: the pyrogram client
(`download_media`, `get_messages`), the filesystem probe `_is_exist`,
`utils.file_management.get_next_name` / `manage_duplicate_file`,
`datetime.utcfromtimestamp(...).isoformat()`, and the process globals
`StaticInfo.THIS_DIR` / `StaticInfo.CHAT_ID`. -/
structure Env where
  thisDir : String
  chatId : String
  iso : Nat → String
  refetch : Int → Nat → Message
  fileExists : String → Bool
  nextName : String → String
  manageDuplicate : Option String → Option String
  download : DCall → Except PyErr (Option String)

/-- Python `str.split` with a one-character separator, written on the
character list so that it evaluates structurally: `"a/b"` gives
`["a", "b"]`, `""` gives `[""]`, separators at the ends or doubled give
empty groups, exactly as in Python. -/
def splitSlash : List Char → List (List Char)
  | [] => [[]]
  | c :: cs =>
    let r := splitSlash cs
    if c = '/' then [] :: r
    else
      match r with
      | [] => [[c]]
      | g :: gs => (c :: g) :: gs

/-- `media_obj.mime_type.split("/")[-1]`. -/
def mimeSuffix (mime : String) : String :=
  String.mk ((splitSlash mime.data).getLastD [])

/-- Python `str` applied to the value of an optional attribute:
`str(None)` is the string `"None"`. -/
def pyStrOpt : Option Nat → String
  | some n => toString n
  | none => "None"

/-- `os.path.join(a, b, c, d)` for the relative path components the code
passes (none of the later components is absolute). -/
def pathJoin4 (a b c d : String) : String :=
  a ++ "/" ++ b ++ "/" ++ c ++ "/" ++ d

/-- `_get_media_meta` (media_handler.py lines 141-189).  Its first
statement logs `media_obj.mime_type`, which raises `AttributeError` on a
photo.  The voice branch recomputes the format and builds
`voice_<isoformat(date)>.<format>`; the photo-without-hint branch builds
`<str(date) or empty><file_unique_id or empty>.jpg`; the remaining
branch builds `<str(date)>-<file_name or file_unique_id>`.  All names
are rooted at `THIS_DIR/CHAT_ID/<type>/`. -/
def get_media_meta (env : Env) (mediaObj : MediaObj) (t : String) :
    Except PyErr (String × Option String) := do
  let mime ← mediaObj.mimeTypeAttr
  let fileFormat : Option String :=
    if t = "audio" ∨ t = "document" ∨ t = "video" then some (mimeSuffix mime)
    else none
  if t = "voice" then
    let fmt := mimeSuffix mime
    match mediaObj.dateAttr with
    | none => .error .typeError
    | some d =>
      .ok (pathJoin4 env.thisDir env.chatId t ("voice_" ++ env.iso d ++ "." ++ fmt),
           some fmt)
  else if t = "photo" ∧ mediaObj.fileNameAttr = none then
    let s := pyStrOpt mediaObj.dateAttr
    let pre := if s = "" then "" else s
    let u := mediaObj.fileUniqueIdAttr
    let u := if u = "" then "" else u
    .ok (pathJoin4 env.thisDir env.chatId t pre ++ u ++ ".jpg", fileFormat)
  else
    let hint :=
      match mediaObj.fileNameAttr with
      | some s => if s = "" then mediaObj.fileUniqueIdAttr else s
      | none => mediaObj.fileUniqueIdAttr
    .ok (pathJoin4 env.thisDir env.chatId t
          (pyStrOpt mediaObj.dateAttr ++ "-" ++ hint), fileFormat)

/-- `save_name = file_name + '.' + file_format` (media_handler.py line
65): concatenating `None` raises `TypeError`. -/
def saveNameE (fileName : String) (fileFormat : Option String) : Except PyErr String :=
  match fileFormat with
  | some f => .ok (fileName ++ "." ++ f)
  | none => .error .typeError

/-- Python `file_format in allowed_formats` where `file_format` may be
`None` (never an element of a list of strings). -/
def fmtMem (fileFormat : Option String) (allowed : List String) : Bool :=
  match fileFormat with
  | some s => allowed.contains s
  | none => false

/-- `_can_download` (media_handler.py lines 192-218).  Python evaluates
the membership test first; only when it fails is `allowed_formats[0]`
evaluated, which raises `IndexError` on an empty allow-list. -/
def can_download (t : String) (ff : String → List String)
    (fileFormat : Option String) : Except PyErr Bool :=
  if t = "audio" ∨ t = "document" ∨ t = "video" then
    let allowed := ff t
    if fmtMem fileFormat allowed = false then
      match allowed with
      | [] => .error .indexError
      | a0 :: _ => if a0 ≠ "all" then .ok false else .ok true
    else .ok true
  else .ok true

/-- The video branch's `for thumb in message.video.thumbs` loop
(media_handler.py lines 80-84): one download call per thumbnail, stopping
at the first call that raises. -/
def downloadThumbs (env : Env) (fileName : String) :
    List Thumb → List DCall × Option PyErr
  | [] => ([], none)
  | t :: ts =>
    let c := DCall.thumb t (fileName ++ ".jpg")
    match env.download c with
    | .error e => ([c], some e)
    | .ok _ =>
      let r := downloadThumbs env fileName ts
      (c :: r.1, r.2)

/-- The accepted-attachment dispatch (media_handler.py lines 68-93): a
pre-existing file takes the `get_next_name` + whole-message download +
`manage_duplicate_file` path; otherwise the code probes
`getattr(message, 'photo')` then `getattr(message, 'video')` on the
carrying message (not the resolved attachment) and falls back to a
whole-message download.  Returns the download calls issued and the
exception, if one was raised. -/
def dispatch (env : Env) (m : Message) (fileName saveName : String) :
    List DCall × Option PyErr :=
  if env.fileExists saveName then
    let c := DCall.message m (env.nextName saveName)
    match env.download c with
    | .error e => ([c], some e)
    | .ok p =>
      let _ := env.manageDuplicate p
      ([c], none)
  else
    match m.photo with
    | some ph =>
      let c := DCall.fileId ph.fileIdAttr saveName
      match env.download c with
      | .error e => ([c], some e)
      | .ok _ => ([c], none)
    | none =>
      match m.video with
      | some v =>
        match v.thumbsAttr with
        | .error e => ([], some e)
        | .ok none => ([], some .typeError)
        | .ok (some ts) => downloadThumbs env fileName ts
      | none =>
        let c := DCall.message m saveName
        match env.download c with
        | .error e => ([c], some e)
        | .ok _ => ([c], none)

/-- Outcome of one pass over the `try` body of `download_media`: the
early `return` for a message without media, normal fall-through to
`break`, or a raised exception. -/
inductive AttemptResult where
  | earlyReturn
  | success
  | raised (e : PyErr)
deriving DecidableEq, Repr

/-- The `for _type in media_types` loop inside the `try` body
(media_handler.py lines 60-97), accumulating the download calls issued
before a possible exception. -/
def processTypes (env : Env) (ff : String → List String) (m : Message) :
    List String → List DCall → List DCall × AttemptResult
  | [], acc => (acc, .success)
  | t :: ts, acc =>
    match m.getSlot t with
    | none => processTypes env ff m ts acc
    | some md =>
      match get_media_meta env md t with
      | .error e => (acc, .raised e)
      | .ok (fileName, fileFormat) =>
        match saveNameE fileName fileFormat with
        | .error e => (acc, .raised e)
        | .ok saveName =>
          match can_download t ff fileFormat with
          | .error e => (acc, .raised e)
          | .ok false => processTypes env ff m ts acc
          | .ok true =>
            match dispatch env m fileName saveName with
            | (ds, some e) => (acc ++ ds, .raised e)
            | (ds, none) => processTypes env ff m ts (acc ++ ds)

/-- One full pass over the `try` body (media_handler.py lines 57-98). -/
def attempt (env : Env) (mediaTypes : List String) (ff : String → List String)
    (m : Message) : List DCall × AttemptResult :=
  if m.mediaIsNone then ([], .earlyReturn)
  else processTypes env ff m mediaTypes []

/-- The observable side effects of a run: download calls issued,
`asyncio.sleep(5)` backoffs performed, ids appended to
`StaticInfo.FAILED_IDS`, and the number of passes over the `try` body
(attempts). -/
structure TraceState where
  downloads : List DCall := []
  sleeps : Nat := 0
  failedIds : List Nat := []
  attempts : Nat := 0
deriving DecidableEq, Repr

/-- The `for retry in range(3)` loop of `download_media`
(media_handler.py lines 56-138) over the list of remaining retry
indices.  `BadRequest` re-fetches the message (rebinding `message`) and,
on `retry == 2`, records the re-fetched id; `TypeError` sleeps and, on
`retry == 2`, records the id; any other exception records the id and
breaks.  Falling off the loop, breaking, or the early return all return
`message.message_id` for the current binding of `message`. -/
def runRetries (env : Env) (mt : List String) (ff : String → List String) :
    List Nat → Message → TraceState → TraceState × Nat
  | [], m, st => (st, m.message_id)
  | r :: rs, m, st =>
    let res := attempt env mt ff m
    let st1 : TraceState :=
      { st with attempts := st.attempts + 1, downloads := st.downloads ++ res.1 }
    match res.2 with
    | .earlyReturn => (st1, m.message_id)
    | .success => (st1, m.message_id)
    | .raised .badRequest =>
      let m2 := env.refetch m.chat_id m.message_id
      let st2 :=
        if r = 2 then { st1 with failedIds := st1.failedIds ++ [m2.message_id] }
        else st1
      runRetries env mt ff rs m2 st2
    | .raised .typeError =>
      let st2 := { st1 with sleeps := st1.sleeps + 1 }
      let st3 :=
        if r = 2 then { st2 with failedIds := st2.failedIds ++ [m.message_id] }
        else st2
      runRetries env mt ff rs m st3
    | .raised _ =>
      ({ st1 with failedIds := st1.failedIds ++ [m.message_id] }, m.message_id)

/-- `download_media` (media_handler.py lines 18-138): three retries. -/
def download_media (env : Env) (mt : List String) (ff : String → List String)
    (m : Message) (st : TraceState) : TraceState × Nat :=
  runRetries env mt ff [0, 1, 2] m st

/-- Python `max` over a list of ints: raises `ValueError` (here `none`)
on an empty list. -/
def pyMax : List Nat → Option Nat
  | [] => none
  | x :: xs => some (xs.foldl Nat.max x)

/-- `process_messages` (media_downloader.py lines 31-73): one
`download_media` task per message (the single-threaded cooperative
scheduler is modelled sequentially; `asyncio.gather` keeps the result
order), then `max` over the returned ids. -/
def process_messages (env : Env) (mt : List String) (ff : String → List String)
    (msgs : List Message) (st : TraceState) : TraceState × Option Nat :=
  let r := msgs.foldl
    (fun (acc : TraceState × List Nat) msg =>
      let o := download_media env mt ff msg acc.1
      (o.1, acc.2 ++ [o.2]))
    (st, [])
  (r.1, pyMax r.2)

/-- The mutable state of the `begin_import` pagination loop
(media_downloader.py lines 107-150): `pagination_count`,
`messages_list`, `last_read_message_id`, the accumulated side-effect
trace, and (as observable instrumentation) the pages handed to
`process_messages`, in order. -/
structure ImportState where
  count : Nat
  buf : List Message
  cursor : Nat
  trace : TraceState
  pages : List (List Message)
deriving DecidableEq, Repr

/-- One iteration of `async for message in messages_iter`
(media_downloader.py lines 118-138, with `debug=False`): either append
to the buffer, or dispatch the buffer as a page (`max` of an empty page
would raise `ValueError`), reset the count to 0 and seed the next buffer
with the triggering message. -/
def importStep (env : Env) (mt : List String) (ff : String → List String)
    (limit : Nat) (s : ImportState) (m : Message) : Except PyErr ImportState :=
  if s.count ≠ limit then
    .ok { s with count := s.count + 1, buf := s.buf ++ [m] }
  else
    let r := process_messages env mt ff s.buf s.trace
    match r.2 with
    | none => .error .valueError
    | some c =>
      .ok { count := 0, buf := [m], cursor := c, trace := r.1,
            pages := s.pages ++ [s.buf] }

/-- `begin_import` (media_downloader.py lines 76-150) restricted to the
core loop: fold the stream through `importStep` starting from the stored
cursor, then flush a non-empty remaining buffer as a final page. -/
def begin_import (env : Env) (mt : List String) (ff : String → List String)
    (limit : Nat) (c0 : Nat) (stream : List Message) : Except PyErr ImportState := do
  let s ← stream.foldlM (importStep env mt ff limit)
    { count := 0, buf := [], cursor := c0, trace := {}, pages := [] }
  if s.buf.length ≠ 0 then
    let r := process_messages env mt ff s.buf s.trace
    match r.2 with
    | none => .error .valueError
    | some c =>
      .ok { s with cursor := c, trace := r.1, pages := s.pages ++ [s.buf] }
  else .ok s

/-- The cursor value a dispatched page produces under the max-reduction
(0 when the page is empty, which never happens for dispatched pages). -/
def pageMaxD (p : List Message) : Nat :=
  (pyMax (p.map (·.message_id))).getD 0

/-! Concrete fixtures used by the witness and counterexample theorems. -/

/-- A message with the given id and no media. -/
def mkMsg (i : Nat) : Message :=
  { message_id := i, chat_id := 0 }

/-- Allow-list configuration whose every entry list is the wildcard. -/
def ffAll : String → List String := fun _ => ["all"]

/-- Allow-list configuration admitting only pdf and zip. -/
def ffPdfZip : String → List String := fun _ => ["pdf", "zip"]

/-- A concrete audio attachment. -/
def audioObj : MediaObj := .audio "audio/mp3" 100 none "uidA" "fidA"

/-- A concrete document attachment. -/
def docObj : MediaObj := .document "application/pdf" 100 none "uidD" "fidD"

/-- A document attachment whose MIME suffix is exe. -/
def docExe : MediaObj := .document "application/exe" 100 none "uidE" "fidE"

/-- The photo attachment of the spec's photo-naming scenario. -/
def photoObj : MediaObj := .photo (some 1700000000) "abc123" "pfid"

/-- A concrete video attachment with two thumbnails. -/
def vidObj : MediaObj :=
  .video "video/mp4" 100 none "uidV" "fidV" (some [Thumb.mk "t1", Thumb.mk "t2"])

/-- An environment whose downloads all succeed, no file pre-exists, and
re-fetching id `i` yields the bare message with id `i`. -/
def envNone : Env :=
  { thisDir := "d", chatId := "c", iso := fun _ => "",
    refetch := fun _ i => mkMsg i,
    fileExists := fun _ => false, nextName := fun s => s,
    manageDuplicate := fun p => p, download := fun _ => .ok (some "path") }

/-- An environment whose every download raises `BadRequest` and whose
re-fetch returns a document message with the requested id. -/
def envStale : Env :=
  { envNone with
    download := fun _ => .error .badRequest,
    refetch := fun _ i => { message_id := i, chat_id := 0, document := some docObj } }

/-- An environment whose every download raises an unclassified error. -/
def envBoom : Env :=
  { envNone with download := fun _ => .error (.other "boom") }

/-- A document message with id 7 (stale-reference scenario). -/
def msgDoc7 : Message :=
  { message_id := 7, chat_id := 0, document := some docObj }

/-- A document message with id 9 (unclassified-error scenario). -/
def msgDoc9 : Message :=
  { message_id := 9, chat_id := 0, document := some docObj }

/-- A document message with id 11 whose format is not allow-listed. -/
def msgExe : Message :=
  { message_id := 11, chat_id := 0, document := some docExe }

/-- An audio-only message. -/
def msgAudio : Message :=
  { message_id := 1, chat_id := 0, audio := some audioObj }

/-- The same audio message additionally carrying a photo attribute. -/
def msgAudioPhoto : Message :=
  { msgAudio with photo := some photoObj }

/-- A video-only message. -/
def msgVid : Message :=
  { message_id := 2, chat_id := 0, video := some vidObj }

/-- A photo-only message with id 3. -/
def msgPhoto : Message :=
  { message_id := 3, chat_id := 0, photo := some photoObj }

/-! Helper lemmas about the Python `max` model. -/

lemma foldl_max_mem : ∀ (xs : List Nat) (x : Nat), xs.foldl Nat.max x ∈ x :: xs := by
  intro xs
  induction xs with
  | nil => intro x; simp [List.foldl]
  | cons y ys ih =>
    intro x
    have h := ih (Nat.max x y)
    simp only [List.foldl]
    have hmx : Nat.max x y = max x y := rfl
    rcases List.mem_cons.mp h with h1 | h1
    · by_cases hxy : x ≤ y
      · rw [h1, hmx, max_eq_right hxy]
        exact List.mem_cons_of_mem _ (List.mem_cons_self _ _)
      · rw [h1, hmx, max_eq_left (le_of_not_le hxy)]
        exact List.mem_cons_self _ _
    · exact List.mem_cons_of_mem _ (List.mem_cons_of_mem _ h1)

lemma le_foldl_max : ∀ (xs : List Nat) (x y : Nat), y ∈ x :: xs → y ≤ xs.foldl Nat.max x := by
  intro xs
  induction xs with
  | nil =>
    intro x y hy
    simp only [List.mem_singleton] at hy
    simp [List.foldl, hy]
  | cons z zs ih =>
    intro x y hy
    simp only [List.foldl]
    rcases List.mem_cons.mp hy with h1 | h1
    · exact le_trans (h1 ▸ Nat.le_max_left x z) (ih _ _ (List.mem_cons_self _ _))
    · rcases List.mem_cons.mp h1 with h2 | h2
      · exact le_trans (h2 ▸ Nat.le_max_right x z) (ih _ _ (List.mem_cons_self _ _))
      · exact ih _ _ (List.mem_cons_of_mem _ h2)

lemma pyMax_eq_some {l : List Nat} (h : l ≠ []) : ∃ v, pyMax l = some v := by
  cases l with
  | nil => exact absurd rfl h
  | cons x xs => exact ⟨xs.foldl Nat.max x, rfl⟩

lemma pyMax_mem {l : List Nat} {v : Nat} (h : pyMax l = some v) : v ∈ l := by
  cases l with
  | nil => simp [pyMax] at h
  | cons x xs =>
    simp only [pyMax, Option.some.injEq] at h
    exact h ▸ foldl_max_mem xs x

lemma pyMax_ub {l : List Nat} {v : Nat} (h : pyMax l = some v) :
    ∀ x ∈ l, x ≤ v := by
  intro x hx
  cases l with
  | nil => simp at hx
  | cons a as =>
    simp only [pyMax, Option.some.injEq] at h
    exact h ▸ le_foldl_max as a x hx

/-! Helper lemmas about the retry state machine and the orchestrator. -/

lemma runRetries_returns_id (env : Env) (mt : List String) (ff : String → List String)
    (hre : ∀ c i, (env.refetch c i).message_id = i) :
    ∀ (l : List Nat) (m : Message) (st : TraceState),
      (runRetries env mt ff l m st).2 = m.message_id := by
  intro l
  induction l with
  | nil => intro m st; rfl
  | cons r rs ih =>
    intro m st
    simp only [runRetries]
    rcases hat : (attempt env mt ff m).2 with _ | _ | e
    · rfl
    · rfl
    · cases e with
      | badRequest => rw [ih]; exact hre _ _
      | typeError => rw [ih]
      | attributeError => rfl
      | indexError => rfl
      | valueError => rfl
      | other s => rfl

lemma download_media_id (env : Env) (mt : List String) (ff : String → List String)
    (hre : ∀ c i, (env.refetch c i).message_id = i) (m : Message) (st : TraceState) :
    (download_media env mt ff m st).2 = m.message_id :=
  runRetries_returns_id env mt ff hre [0, 1, 2] m st

lemma process_fold_ids (env : Env) (mt : List String) (ff : String → List String)
    (hre : ∀ c i, (env.refetch c i).message_id = i) :
    ∀ (msgs : List Message) (st : TraceState) (acc : List Nat),
      (msgs.foldl
        (fun (a : TraceState × List Nat) msg =>
          let o := download_media env mt ff msg a.1
          (o.1, a.2 ++ [o.2]))
        (st, acc)).2 = acc ++ msgs.map (·.message_id) := by
  intro msgs
  induction msgs with
  | nil => intro st acc; simp
  | cons m ms ih =>
    intro st acc
    simp only [List.foldl, List.map]
    rw [ih, download_media_id env mt ff hre]
    simp

lemma process_messages_snd (env : Env) (mt : List String) (ff : String → List String)
    (hre : ∀ c i, (env.refetch c i).message_id = i)
    (msgs : List Message) (st : TraceState) :
    (process_messages env mt ff msgs st).2 = pyMax (msgs.map (·.message_id)) := by
  simp only [process_messages]
  rw [process_fold_ids env mt ff hre msgs st []]
  rfl

lemma process_fold_len (env : Env) (mt : List String) (ff : String → List String) :
    ∀ (msgs : List Message) (st : TraceState) (acc : List Nat),
      ((msgs.foldl
        (fun (a : TraceState × List Nat) msg =>
          let o := download_media env mt ff msg a.1
          (o.1, a.2 ++ [o.2]))
        (st, acc)).2).length = acc.length + msgs.length := by
  intro msgs
  induction msgs with
  | nil => intro st acc; simp
  | cons m ms ih =>
    intro st acc
    simp only [List.foldl]
    rw [ih]
    simp
    omega

lemma process_messages_some (env : Env) (mt : List String) (ff : String → List String)
    (msgs : List Message) (st : TraceState) (h : msgs ≠ []) :
    ∃ tr v, process_messages env mt ff msgs st = (tr, some v) := by
  simp only [process_messages]
  set r := msgs.foldl
    (fun (a : TraceState × List Nat) msg =>
      let o := download_media env mt ff msg a.1
      (o.1, a.2 ++ [o.2]))
    (st, ([] : List Nat)) with hr
  have hlen : r.2.length = msgs.length := by
    rw [hr, process_fold_len env mt ff msgs st []]
    simp
  have hne : r.2 ≠ [] := by
    intro hemp
    rw [hemp] at hlen
    exact h (List.eq_nil_of_length_eq_zero hlen.symm)
  obtain ⟨v, hv⟩ := pyMax_eq_some hne
  exact ⟨r.1, v, by rw [hv]⟩

/-- C2: for every non-empty page P, `process_messages` returns the
maximum message id over P, however many messages fail, because
`download_media` returns the message's own id on every terminal path
(given that re-fetching a message by id yields a message with that id,
the Message Source contract of spec §6). -/
theorem c2_process_messages_returns_max
    (env : Env) (mt : List String) (ff : String → List String)
    (msgs : List Message) (st : TraceState)
    (hre : ∀ c i, (env.refetch c i).message_id = i) (hne : msgs ≠ []) :
    ∃ v, (process_messages env mt ff msgs st).2 = some v ∧
      v ∈ msgs.map (·.message_id) ∧
      ∀ x ∈ msgs.map (·.message_id), x ≤ v := by
  have h := process_messages_snd env mt ff hre msgs st
  have hmapne : msgs.map (·.message_id) ≠ [] := fun hmap =>
    hne (List.map_eq_nil_iff.mp hmap)
  obtain ⟨v, hv⟩ := pyMax_eq_some hmapne
  exact ⟨v, h ▸ hv, pyMax_mem hv, pyMax_ub hv⟩

/-- Witness for C2 on a concrete two-message page. -/
theorem c2_witness :
    ∃ v, (process_messages envNone ["photo"] ffAll [mkMsg 5, mkMsg 9] {}).2 = some v ∧
      v ∈ [mkMsg 5, mkMsg 9].map (·.message_id) ∧
      ∀ x ∈ [mkMsg 5, mkMsg 9].map (·.message_id), x ≤ v :=
  c2_process_messages_returns_max envNone ["photo"] ffAll [mkMsg 5, mkMsg 9] {}
    (fun _ _ => rfl) (by decide)

/-- C7: an attempt that raises an error which is neither the
stale-reference class (`BadRequest`) nor the transient class
(`TypeError`) records the message id immediately, performs no backoff
and no second attempt, and returns the message's own id. -/
theorem c7_unclassified_no_retry
    (env : Env) (mt : List String) (ff : String → List String)
    (m : Message) (st : TraceState) (e : PyErr)
    (ha : (attempt env mt ff m).2 = .raised e)
    (hb : e ≠ .badRequest) (ht : e ≠ .typeError) :
    ∃ st', download_media env mt ff m st = (st', m.message_id) ∧
      st'.downloads = st.downloads ++ (attempt env mt ff m).1 ∧
      st'.failedIds = st.failedIds ++ [m.message_id] ∧
      st'.sleeps = st.sleeps ∧
      st'.attempts = st.attempts + 1 := by
  cases e with
  | badRequest => exact absurd rfl hb
  | typeError => exact absurd rfl ht
  | attributeError =>
    simp only [download_media, runRetries, ha]
    exact ⟨_, rfl, rfl, rfl, rfl, rfl⟩
  | indexError =>
    simp only [download_media, runRetries, ha]
    exact ⟨_, rfl, rfl, rfl, rfl, rfl⟩
  | valueError =>
    simp only [download_media, runRetries, ha]
    exact ⟨_, rfl, rfl, rfl, rfl, rfl⟩
  | other s =>
    simp only [download_media, runRetries, ha]
    exact ⟨_, rfl, rfl, rfl, rfl, rfl⟩

/-- Witness for C7: an unclassified error on the first attempt for
message id 9 puts 9 in the registry with a single attempt. -/
theorem c7_witness :
    ∃ st', download_media envBoom ["document"] ffAll msgDoc9 {} = (st', 9) ∧
      st'.failedIds = [9] ∧ st'.sleeps = 0 ∧ st'.attempts = 1 := by
  obtain ⟨st', h1, _, h3, h4, h5⟩ :=
    c7_unclassified_no_retry envBoom ["document"] ffAll msgDoc9 {} (.other "boom")
      (by decide) (by decide) (by decide)
  exact ⟨st', h1, by simpa using h3, by simpa using h4, by simpa using h5⟩

/-- One `BadRequest` iteration of the retry loop with `retry != 2`:
re-fetch, no sleep, no registry append. -/
lemma runRetries_step_bad_notlast (env : Env) (mt : List String)
    (ff : String → List String) (r : Nat) (rs : List Nat) (m : Message)
    (st : TraceState) (hr : r ≠ 2)
    (ha : (attempt env mt ff m).2 = .raised .badRequest) :
    runRetries env mt ff (r :: rs) m st =
      runRetries env mt ff rs (env.refetch m.chat_id m.message_id)
        { st with attempts := st.attempts + 1,
                  downloads := st.downloads ++ (attempt env mt ff m).1 } := by
  simp only [runRetries, ha, if_neg hr]

/-- The final `BadRequest` iteration (`retry == 2`): re-fetch, then
record the re-fetched id. -/
lemma runRetries_step_bad_last (env : Env) (mt : List String)
    (ff : String → List String) (rs : List Nat) (m : Message)
    (st : TraceState)
    (ha : (attempt env mt ff m).2 = .raised .badRequest) :
    runRetries env mt ff (2 :: rs) m st =
      runRetries env mt ff rs (env.refetch m.chat_id m.message_id)
        { st with attempts := st.attempts + 1,
                  downloads := st.downloads ++ (attempt env mt ff m).1,
                  failedIds := st.failedIds ++
                    [(env.refetch m.chat_id m.message_id).message_id] } := by
  simp only [runRetries, ha]
  norm_num

/-- C3: when the attempt raises a stale-reference error (`BadRequest`)
on all three retries, the message is re-fetched each time and retried
with no backoff, the (re-fetched) message id is recorded in the registry
exactly once, and that id is returned.  `m1`, `m2`, `m3` are the
successive re-fetched bindings of `message`; the final binding carries
the same id as the original message. -/
theorem c3_stale_reference_exhausted
    (env : Env) (mt : List String) (ff : String → List String)
    (m m1 m2 m3 : Message) (st : TraceState)
    (hm1 : m1 = env.refetch m.chat_id m.message_id)
    (hm2 : m2 = env.refetch m1.chat_id m1.message_id)
    (hm3 : m3 = env.refetch m2.chat_id m2.message_id)
    (ha0 : (attempt env mt ff m).2 = .raised .badRequest)
    (ha1 : (attempt env mt ff m1).2 = .raised .badRequest)
    (ha2 : (attempt env mt ff m2).2 = .raised .badRequest)
    (hi3 : m3.message_id = m.message_id) :
    ∃ st', download_media env mt ff m st = (st', m.message_id) ∧
      st'.failedIds = st.failedIds ++ [m.message_id] ∧
      st'.sleeps = st.sleeps ∧
      st'.attempts = st.attempts + 3 := by
  unfold download_media
  rw [runRetries_step_bad_notlast env mt ff 0 [1, 2] m st (by decide) ha0,
    show env.refetch m.chat_id m.message_id = m1 from hm1.symm,
    runRetries_step_bad_notlast env mt ff 1 [2] m1 _ (by decide) ha1,
    show env.refetch m1.chat_id m1.message_id = m2 from hm2.symm,
    runRetries_step_bad_last env mt ff [] m2 _ ha2,
    show env.refetch m2.chat_id m2.message_id = m3 from hm3.symm]
  simp only [runRetries]
  rw [hi3]
  exact ⟨_, rfl, rfl, rfl, by show st.attempts + 1 + 1 + 1 = st.attempts + 3; omega⟩

/-- Witness for C3: three consecutive stale-reference errors on message
id 7 leave exactly one entry 7 in the registry, sleep never, use all
three attempts, and return 7. -/
theorem c3_witness :
    ∃ st', download_media envStale ["document"] ffAll msgDoc7 {} = (st', 7) ∧
      st'.failedIds = [7] ∧ st'.sleeps = 0 ∧ st'.attempts = 3 := by
  have hat : (attempt envStale ["document"] ffAll msgDoc7).2 =
      AttemptResult.raised PyErr.badRequest := by decide
  obtain ⟨st', h1, h2, h3, h4⟩ :=
    c3_stale_reference_exhausted envStale ["document"] ffAll
      msgDoc7 msgDoc7 msgDoc7 msgDoc7 {} rfl rfl rfl hat hat hat rfl
  exact ⟨st', h1, by simpa using h2, by simpa using h3, by simpa using h4⟩

/-- `_get_media_meta` on a photo raises `AttributeError` at its first
statement, which reads `media_obj.mime_type`. -/
lemma get_media_meta_photo (env : Env) (od : Option Nat) (uid fid : String)
    (t : String) :
    get_media_meta env (.photo od uid fid) t = .error .attributeError := rfl

/-- An attempt on a message whose photo slot is set, with media types
`["photo"]`, raises `AttributeError` before any download call. -/
lemma attempt_photo (env : Env) (ff : String → List String) (m : Message)
    (od : Option Nat) (uid fid : String)
    (hp : m.photo = some (.photo od uid fid)) :
    attempt env ["photo"] ff m = ([], .raised .attributeError) := by
  have hmedia : m.mediaIsNone = false := by
    simp [Message.mediaIsNone, hp]
  simp [attempt, hmedia, processTypes, Message.getSlot, hp, get_media_meta_photo]

/-- C4 (amended): for every message whose resolved attachment is a
photo, the Naming Resolver raises `AttributeError` at its MIME-type
logging step (photos carry no MIME type), before the save-name
construction, the format filter or any download call; the error falls to
the catch-all handler, so the id is appended to the FailureRegistry
immediately after the first attempt, with no backoff, no retry and no
photo download call. -/
theorem c4_photo_attribute_error
    (env : Env) (ff : String → List String) (m : Message) (st : TraceState)
    (od : Option Nat) (uid fid : String)
    (hp : m.photo = some (.photo od uid fid)) :
    (attempt env ["photo"] ff m).2 = .raised .attributeError ∧
    ∃ st', download_media env ["photo"] ff m st = (st', m.message_id) ∧
      st'.downloads = st.downloads ∧
      st'.sleeps = st.sleeps ∧
      st'.failedIds = st.failedIds ++ [m.message_id] ∧
      st'.attempts = st.attempts + 1 := by
  have hat := attempt_photo env ff m od uid fid hp
  refine ⟨by rw [hat], ?_⟩
  simp only [download_media, runRetries, hat]
  exact ⟨_, rfl, by simp, rfl, rfl, rfl⟩

/-- Counterexample to C4 as stated: on a concrete photo-only message the
id is registered after a single attempt with zero backoffs, and the
raised error is not `TypeError`. -/
theorem c4_counterexample :
    download_media envNone ["photo"] ffAll msgPhoto {} =
      ({ downloads := [], sleeps := 0, failedIds := [3], attempts := 1 }, 3) ∧
    (attempt envNone ["photo"] ffAll msgPhoto).2 ≠
      AttemptResult.raised PyErr.typeError := by
  exact ⟨by decide, by decide⟩

/-- Witness for the amended C4 on a concrete photo-only message. -/
theorem c4_witness :
    (attempt envNone ["photo"] ffAll msgPhoto).2 = .raised .attributeError ∧
    ∃ st', download_media envNone ["photo"] ffAll msgPhoto {} = (st', 3) ∧
      st'.downloads = [] ∧ st'.sleeps = 0 ∧ st'.failedIds = [3] ∧
      st'.attempts = 1 := by
  obtain ⟨h0, st', h1, h2, h3, h4, h5⟩ :=
    c4_photo_attribute_error envNone ffAll msgPhoto {}
      (some 1700000000) "abc123" "pfid" rfl
  exact ⟨h0, st', h1, by simpa using h2, by simpa using h3,
    by simpa using h4, by simpa using h5⟩

/-- Counterexample to C6 as stated: the scenario input (photo with
date 1700000000, no hint, unique id abc123) makes the Naming Resolver
raise `AttributeError` instead of resolving any name. -/
theorem c6_counterexample :
    get_media_meta envNone photoObj "photo" = .error .attributeError := rfl

/-- C6 (amended): for every photo attachment, the Naming Resolver raises
`AttributeError` when logging the attachment's MIME type (photos carry
none), so no (name, format) pair — in particular not
`1700000000abc123.jpg` with format none — is ever produced. -/
theorem c6_photo_naming_crashes
    (env : Env) (od : Option Nat) (uid fid : String) (t : String) :
    get_media_meta env (.photo od uid fid) t = .error .attributeError := rfl

/-- Counterexample to C5 as stated: two messages carrying the same
resolved audio attachment are dispatched differently depending on
whether the message also has a photo attribute — the second issues a
photo file-id download while resolving its audio attachment. -/
theorem c5_counterexample :
    (attempt envNone ["audio"] ffAll msgAudio).1 =
      [DCall.message msgAudio "d/c/audio/100-uidA.mp3"] ∧
    (attempt envNone ["audio"] ffAll msgAudioPhoto).1 =
      [DCall.fileId "pfid" "d/c/audio/100-uidA.mp3"] :=
  ⟨by decide, by decide⟩

/-- An attempt on a message that has media runs the per-type loop. -/
lemma attempt_not_none (env : Env) (mt : List String)
    (ff : String → List String) (m : Message) (h : m.mediaIsNone = false) :
    attempt env mt ff m = processTypes env ff m mt [] := by
  simp [attempt, h]

/-- The video thumbnail loop downloads every thumbnail when no download
call raises. -/
lemma downloadThumbs_ok (env : Env) (fn : String)
    (hdl : ∀ c, ∃ p, env.download c = Except.ok p) :
    ∀ ts : List Thumb, downloadThumbs env fn ts =
      (ts.map (fun th => DCall.thumb th (fn ++ ".jpg")), none) := by
  intro ts
  induction ts with
  | nil => rfl
  | cons t ts ih =>
    obtain ⟨p, hp⟩ := hdl (DCall.thumb t (fn ++ ".jpg"))
    simp [downloadThumbs, hp, ih]

/-- C5 (amended): the dispatch probes the carrying message's photo and
video attributes rather than the resolved attachment, so the variant can
depend on the message's other media attributes; when the resolved
attachment is the only media attribute set and no same-named file
pre-exists, the variant does match the attachment kind: a plain
whole-message download for an accepted audio or document, and one
thumbnail download per thumbnail — never a download of the video body —
for an accepted video with a thumbnail list.  (A photo attachment never
reaches dispatch, since the Naming Resolver raises first.) -/
theorem c5_dispatch_variant :
    (∀ (env : Env) (ff : String → List String) (m : Message) (a : MediaObj)
       (fn : String) (fmt : Option String) (sn : String),
       m.audio = some a → m.photo = none → m.video = none →
       get_media_meta env a "audio" = .ok (fn, fmt) →
       saveNameE fn fmt = .ok sn →
       can_download "audio" ff fmt = .ok true →
       env.fileExists sn = false →
       (attempt env ["audio"] ff m).1 = [DCall.message m sn]) ∧
    (∀ (env : Env) (ff : String → List String) (m : Message) (d : MediaObj)
       (fn : String) (fmt : Option String) (sn : String),
       m.document = some d → m.photo = none → m.video = none →
       get_media_meta env d "document" = .ok (fn, fmt) →
       saveNameE fn fmt = .ok sn →
       can_download "document" ff fmt = .ok true →
       env.fileExists sn = false →
       (attempt env ["document"] ff m).1 = [DCall.message m sn]) ∧
    (∀ (env : Env) (ff : String → List String) (m : Message) (v : MediaObj)
       (ts : List Thumb) (fn : String) (fmt : Option String) (sn : String),
       m.video = some v → m.photo = none →
       v.thumbsAttr = .ok (some ts) →
       get_media_meta env v "video" = .ok (fn, fmt) →
       saveNameE fn fmt = .ok sn →
       can_download "video" ff fmt = .ok true →
       env.fileExists sn = false →
       (∀ c, ∃ p, env.download c = Except.ok p) →
       (attempt env ["video"] ff m).1 =
         ts.map (fun th => DCall.thumb th (fn ++ ".jpg"))) := by
  refine ⟨?_, ?_, ?_⟩
  · intro env ff m a fn fmt sn ha hp hv hmeta hsn hcan hex
    rw [attempt_not_none env ["audio"] ff m (by simp [Message.mediaIsNone, ha])]
    rcases hdl : env.download (DCall.message m sn) with e | pth <;>
      simp [processTypes, Message.getSlot, ha, hmeta, hsn, hcan, dispatch,
        hex, hp, hv, hdl]
  · intro env ff m d fn fmt sn hd hp hv hmeta hsn hcan hex
    rw [attempt_not_none env ["document"] ff m (by simp [Message.mediaIsNone, hd])]
    rcases hdl : env.download (DCall.message m sn) with e | pth <;>
      simp [processTypes, Message.getSlot, hd, hmeta, hsn, hcan, dispatch,
        hex, hp, hv, hdl]
  · intro env ff m v ts fn fmt sn hv hp hth hmeta hsn hcan hex hdl
    rw [attempt_not_none env ["video"] ff m (by simp [Message.mediaIsNone, hv])]
    simp [processTypes, Message.getSlot, hv, hmeta, hsn, hcan, dispatch,
      hex, hp, hth, downloadThumbs_ok env fn hdl]

/-- Witness for the amended C5: audio and document messages get the
plain whole-message call, a video message gets one call per thumbnail. -/
theorem c5_witness :
    (attempt envNone ["audio"] ffAll msgAudio).1 =
      [DCall.message msgAudio "d/c/audio/100-uidA.mp3"] ∧
    (attempt envNone ["document"] ffAll msgDoc7).1 =
      [DCall.message msgDoc7 "d/c/document/100-uidD.pdf"] ∧
    (attempt envNone ["video"] ffAll msgVid).1 =
      [DCall.thumb (Thumb.mk "t1") "d/c/video/100-uidV.jpg",
       DCall.thumb (Thumb.mk "t2") "d/c/video/100-uidV.jpg"] := by
  obtain ⟨h1, h2, h3⟩ := c5_dispatch_variant
  refine ⟨h1 envNone ffAll msgAudio audioObj "d/c/audio/100-uidA" (some "mp3")
      "d/c/audio/100-uidA.mp3" rfl rfl rfl rfl rfl rfl rfl,
    h2 envNone ffAll msgDoc7 docObj "d/c/document/100-uidD" (some "pdf")
      "d/c/document/100-uidD.pdf" rfl rfl rfl rfl rfl rfl rfl,
    ?_⟩
  have h := h3 envNone ffAll msgVid vidObj [Thumb.mk "t1", Thumb.mk "t2"]
    "d/c/video/100-uidV" (some "mp4") "d/c/video/100-uidV.mp4"
    rfl rfl rfl rfl rfl rfl rfl
    (fun c => ⟨some "path", rfl⟩)
  simpa using h

/-- `_can_download` computed on a non-empty allow-list. -/
lemma can_download_eq (t : String) (ff : String → List String)
    (fmt : Option String) (ht : t = "audio" ∨ t = "document" ∨ t = "video")
    (a0 : String) (rest : List String) (hff : ff t = a0 :: rest) :
    can_download t ff fmt =
      if fmtMem fmt (a0 :: rest) = false then
        (if a0 ≠ "all" then .ok false else .ok true)
      else .ok true := by
  simp only [can_download, if_pos ht, hff]

/-- C8: the Format Filter admits an audio/document/video attachment iff
its format is in the (non-empty) allow-list for the type or the list's
first entry is the wildcard; photo and voice are always admitted; and a
rejected attachment causes no download call and no failure of the
message. -/
theorem c8_format_filter :
    (∀ (ff : String → List String) (fmt : Option String) (t : String),
       t = "audio" ∨ t = "document" ∨ t = "video" → ff t ≠ [] →
       (can_download t ff fmt = .ok true ↔
         (fmtMem fmt (ff t) = true ∨ (ff t).head? = some "all"))) ∧
    (∀ (ff : String → List String) (fmt : Option String),
       can_download "photo" ff fmt = .ok true ∧
       can_download "voice" ff fmt = .ok true) ∧
    (∀ (env : Env) (ff : String → List String) (m : Message) (st : TraceState)
       (mime : String) (dt : Nat) (fn : Option String) (uid fid a0 : String)
       (rest : List String),
       m.document = some (.document mime dt fn uid fid) →
       ff "document" = a0 :: rest → a0 ≠ "all" →
       fmtMem (some (mimeSuffix mime)) (a0 :: rest) = false →
       ∃ st', download_media env ["document"] ff m st = (st', m.message_id) ∧
         st'.downloads = st.downloads ∧
         st'.failedIds = st.failedIds ∧
         st'.sleeps = st.sleeps) := by
  refine ⟨?_, ?_, ?_⟩
  · intro ff fmt t ht hnil
    obtain ⟨a0, rest, hff⟩ := List.exists_cons_of_ne_nil hnil
    rw [can_download_eq t ff fmt ht a0 rest hff]
    cases hm : fmtMem fmt (a0 :: rest) with
    | false =>
      by_cases hall : a0 = "all" <;> simp [hall, hff, hm]
    | true =>
      simp [hff, hm]
  · intro ff fmt
    exact ⟨rfl, rfl⟩
  · intro env ff m st mime dt fn uid fid a0 rest hdoc hff hall hm
    have hcd : can_download "document" ff (some (mimeSuffix mime)) = .ok false := by
      rw [can_download_eq "document" ff _ (Or.inr (Or.inl rfl)) a0 rest hff]
      simp [hm, hall]
    have hat : attempt env ["document"] ff m = ([], .success) := by
      rw [attempt_not_none env ["document"] ff m (by simp [Message.mediaIsNone, hdoc])]
      simp [processTypes, Message.getSlot, hdoc, get_media_meta,
        MediaObj.mimeTypeAttr, MediaObj.dateAttr, MediaObj.fileNameAttr,
        MediaObj.fileUniqueIdAttr, saveNameE, hcd, Bind.bind, Except.bind]
    simp only [download_media, runRetries, hat]
    exact ⟨_, rfl, by simp, rfl, rfl⟩

/-- Witness for C8: a document with format exe against allow-list
pdf/zip is rejected, with no download call and no registry entry. -/
theorem c8_witness :
    (can_download "document" ffPdfZip (some "exe") = .ok true ↔
      (fmtMem (some "exe") (ffPdfZip "document") = true ∨
        (ffPdfZip "document").head? = some "all")) ∧
    can_download "photo" ffPdfZip none = .ok true ∧
    ∃ st', download_media envNone ["document"] ffPdfZip msgExe {} = (st', 11) ∧
      st'.downloads = [] ∧ st'.failedIds = [] ∧ st'.sleeps = 0 := by
  obtain ⟨h1, h2, h3⟩ := c8_format_filter
  refine ⟨h1 ffPdfZip (some "exe") "document" (Or.inr (Or.inl rfl)) (by decide),
    (h2 ffPdfZip none).1, ?_⟩
  obtain ⟨st', k1, k2, k3, k4⟩ := h3 envNone ffPdfZip msgExe {} "application/exe"
    100 none "uidE" "fidE" "pdf" ["zip"] rfl rfl (by decide) (by decide)
  exact ⟨st', k1, by simpa using k2, by simpa using k3, by simpa using k4⟩

/-- C1: the pagination loop overflows the page size.  With page size 1
and the three-message stream 1,2,3, the second call to
`process_messages` receives the two-message page [2, 3], because the
loop resets `pagination_count` to 0 while seeding `messages_list` with
the triggering message.  This exhibits the off-by-one at the failing
input of the claim. -/
theorem c1_pagination_overflow :
    (begin_import envNone ["photo"] ffAll 1 0 [mkMsg 1, mkMsg 2, mkMsg 3]).toOption.map
        (fun s => s.pages) = some [[mkMsg 1], [mkMsg 2, mkMsg 3]] ∧
    (1 : Nat) < [mkMsg 2, mkMsg 3].length :=
  ⟨by decide, by decide⟩

/-- Bind on a successful `Except` computation. -/
lemma except_bind_ok {ε α β : Type} (a : α) (f : α → Except ε β) :
    (Except.ok (ε := ε) a >>= f) = f a := rfl

/-- Invariant of the pagination fold: the counter never exceeds the
buffer length, and every dispatched page is non-empty (page size at
least 1). -/
lemma import_fold_inv (env : Env) (mt : List String) (ff : String → List String)
    (limit : Nat) (hlim : 1 ≤ limit) :
    ∀ (stream : List Message) (s : ImportState),
      s.count ≤ s.buf.length → (∀ p ∈ s.pages, p ≠ []) →
      ∃ s', List.foldlM (importStep env mt ff limit) s stream = .ok s' ∧
        s'.count ≤ s'.buf.length ∧ (∀ p ∈ s'.pages, p ≠ []) := by
  intro stream
  induction stream with
  | nil => intro s h1 h2; exact ⟨s, rfl, h1, h2⟩
  | cons m ms ih =>
    intro s h1 h2
    by_cases hc : s.count = limit
    · have hbuf : s.buf ≠ [] := by
        intro hb
        rw [hb] at h1
        simp at h1
        omega
      obtain ⟨tr, v, hpv⟩ := process_messages_some env mt ff s.buf s.trace hbuf
      have hstep : importStep env mt ff limit s m = .ok
          { count := 0, buf := [m], cursor := v, trace := tr,
            pages := s.pages ++ [s.buf] } := by
        simp [importStep, hc, hpv]
      rw [List.foldlM_cons, hstep, except_bind_ok]
      apply ih
      · simp
      · intro p hp
        rcases List.mem_append.mp hp with h | h
        · exact h2 p h
        · simp only [List.mem_singleton] at h
          rw [h]
          exact hbuf
    · have hstep : importStep env mt ff limit s m = .ok
          { s with count := s.count + 1, buf := s.buf ++ [m] } := by
        simp [importStep, hc]
      rw [List.foldlM_cons, hstep, except_bind_ok]
      apply ih
      · simp
        omega
      · exact h2

/-- C10: with page size at least 1, the run always succeeds — the
`ValueError` branch of the max-reduction is unreachable — every page
handed to `process_messages` is non-empty, and on every such page the
max-reduction produces a value. -/
theorem c10_no_empty_page
    (env : Env) (mt : List String) (ff : String → List String)
    (limit : Nat) (c0 : Nat) (stream : List Message) (hlim : 1 ≤ limit) :
    ∃ s, begin_import env mt ff limit c0 stream = .ok s ∧
      (∀ p ∈ s.pages, p ≠ []) ∧
      ∀ p ∈ s.pages, ∀ st, (process_messages env mt ff p st).2 ≠ none := by
  obtain ⟨s', hfold, h1, h2⟩ := import_fold_inv env mt ff limit hlim stream
    ⟨0, [], c0, {}, []⟩ (by simp) (by simp)
  have hsome : ∀ (pg : List (List Message)), (∀ p ∈ pg, p ≠ []) →
      ∀ p ∈ pg, ∀ st, (process_messages env mt ff p st).2 ≠ none := by
    intro pg hpg p hp st
    obtain ⟨tr2, v2, hpv2⟩ := process_messages_some env mt ff p st (hpg p hp)
    rw [hpv2]
    simp
  simp only [begin_import, hfold, except_bind_ok]
  by_cases hb : s'.buf.length ≠ 0
  · have hbuf : s'.buf ≠ [] := by
      intro h
      rw [h] at hb
      simp at hb
    obtain ⟨tr, v, hpv⟩ := process_messages_some env mt ff s'.buf s'.trace hbuf
    rw [if_pos hb]
    simp only [hpv]
    refine ⟨_, rfl, ?_, ?_⟩
    · intro p hp
      rcases List.mem_append.mp hp with h | h
      · exact h2 p h
      · simp only [List.mem_singleton] at h
        rw [h]
        exact hbuf
    · apply hsome
      intro p hp
      rcases List.mem_append.mp hp with h | h
      · exact h2 p h
      · simp only [List.mem_singleton] at h
        rw [h]
        exact hbuf
  · rw [if_neg hb]
    exact ⟨s', rfl, h2, hsome s'.pages h2⟩

/-- Witness for C10 at page size 1 on a concrete stream. -/
theorem c10_witness :
    ∃ s, begin_import envNone ["photo"] ffAll 1 0 [mkMsg 1, mkMsg 2, mkMsg 3] =
        .ok s ∧
      (∀ p ∈ s.pages, p ≠ []) ∧
      ∀ p ∈ s.pages, ∀ st,
        (process_messages envNone ["photo"] ffAll p st).2 ≠ none :=
  c10_no_empty_page envNone ["photo"] ffAll 1 0 [mkMsg 1, mkMsg 2, mkMsg 3]
    (by decide)

/-- A non-empty page attains its max: some element has id `pageMaxD`. -/
lemma pageMaxD_mem {P : List Message} (hP : P ≠ []) :
    ∃ a ∈ P, a.message_id = pageMaxD P := by
  have hmapne : P.map (·.message_id) ≠ [] := fun h => hP (List.map_eq_nil_iff.mp h)
  obtain ⟨v, hv⟩ := pyMax_eq_some hmapne
  have hmem := pyMax_mem hv
  rw [List.mem_map] at hmem
  obtain ⟨a, ha, hav⟩ := hmem
  refine ⟨a, ha, ?_⟩
  rw [pageMaxD, hv]
  simpa using hav

/-- `pageMaxD` bounds every id of a non-empty page. -/
lemma pageMaxD_ub {P : List Message} (hP : P ≠ []) :
    ∀ a ∈ P, a.message_id ≤ pageMaxD P := by
  intro a ha
  have hmapne : P.map (·.message_id) ≠ [] := fun h => hP (List.map_eq_nil_iff.mp h)
  obtain ⟨v, hv⟩ := pyMax_eq_some hmapne
  rw [pageMaxD, hv]
  simpa using pyMax_ub hv _ (List.mem_map_of_mem _ ha)

/-- Appending one more page keeps the page-max chain non-decreasing when
every element of every earlier page is bounded by the new page's
elements. -/
lemma chain_snoc (L : List (List Message)) (P : List Message)
    (hc : List.Chain' (· ≤ ·) (L.map pageMaxD))
    (hne : ∀ p ∈ L, p ≠ []) (hP : P ≠ [])
    (hle : ∀ p ∈ L, ∀ a ∈ p, ∀ b ∈ P, a.message_id ≤ b.message_id) :
    List.Chain' (· ≤ ·) ((L ++ [P]).map pageMaxD) := by
  rw [List.map_append]
  apply List.Chain'.append hc (List.chain'_singleton _)
  intro x hx y hy
  simp only [List.map_cons, List.map_nil, List.head?_cons, Option.mem_def,
    Option.some.injEq] at hy
  rcases List.eq_nil_or_concat L with rfl | ⟨L0, q, rfl⟩
  · simp at hx
  · rw [List.concat_eq_append] at hne hle hx
    have hxval : x = pageMaxD q := by
      simp only [List.map_append, List.map_cons, List.map_nil] at hx
      rw [List.getLast?_concat] at hx
      simpa using hx.symm
    have hqmem : q ∈ L0 ++ [q] := List.mem_append_right _ (List.mem_singleton.mpr rfl)
    obtain ⟨aq, haq, haqv⟩ := pageMaxD_mem (hne q hqmem)
    obtain ⟨bP, hbP, hbPv⟩ := pageMaxD_mem hP
    rw [hxval, ← hy, ← haqv, ← hbPv]
    exact hle q hqmem aq haq bP hbP

/-- Invariant of the pagination fold used for cursor monotonicity: the
counter bounds the buffer, pages are non-empty, the unread part of the
stream together with the buffer is strictly increasing in ids, every
dispatched id is bounded by every yet-unprocessed id, the page-max chain
is non-decreasing, and the cursor equals the last dispatched page's max
(or the initial cursor). -/
lemma import_fold_inv9 (env : Env) (mt : List String) (ff : String → List String)
    (limit c0 : Nat) (hlim : 1 ≤ limit)
    (hre : ∀ c i, (env.refetch c i).message_id = i) :
    ∀ (stream : List Message) (s : ImportState),
      s.count ≤ s.buf.length →
      (∀ p ∈ s.pages, p ≠ []) →
      (s.buf ++ stream).Pairwise (fun a b => a.message_id < b.message_id) →
      (∀ p ∈ s.pages, ∀ a ∈ p, ∀ b ∈ s.buf ++ stream,
        a.message_id ≤ b.message_id) →
      List.Chain' (· ≤ ·) (s.pages.map pageMaxD) →
      s.cursor = (s.pages.map pageMaxD).getLastD c0 →
      ∃ s', List.foldlM (importStep env mt ff limit) s stream = .ok s' ∧
        s'.count ≤ s'.buf.length ∧
        (∀ p ∈ s'.pages, p ≠ []) ∧
        s'.buf.Pairwise (fun a b => a.message_id < b.message_id) ∧
        (∀ p ∈ s'.pages, ∀ a ∈ p, ∀ b ∈ s'.buf, a.message_id ≤ b.message_id) ∧
        List.Chain' (· ≤ ·) (s'.pages.map pageMaxD) ∧
        s'.cursor = (s'.pages.map pageMaxD).getLastD c0 := by
  intro stream
  induction stream with
  | nil =>
    intro s h1 h2 h3 h4 h5 h6
    exact ⟨s, rfl, h1, h2, by simpa using h3, by simpa using h4, h5, h6⟩
  | cons m ms ih =>
    intro s h1 h2 h3 h4 h5 h6
    by_cases hc : s.count = limit
    · have hbuf : s.buf ≠ [] := by
        intro hb
        rw [hb] at h1
        simp at h1
        omega
      have hmapne : s.buf.map (·.message_id) ≠ [] := fun h =>
        hbuf (List.map_eq_nil_iff.mp h)
      obtain ⟨v, hv⟩ := pyMax_eq_some hmapne
      have hsnd : (process_messages env mt ff s.buf s.trace).2 = some v := by
        rw [process_messages_snd env mt ff hre, hv]
      have hvval : v = pageMaxD s.buf := by
        rw [pageMaxD, hv]
        simp
      have hstep : importStep env mt ff limit s m = .ok
          { count := 0, buf := [m], cursor := v,
            trace := (process_messages env mt ff s.buf s.trace).1,
            pages := s.pages ++ [s.buf] } := by
        simp [importStep, hc, hsnd]
      rw [List.foldlM_cons, hstep, except_bind_ok]
      apply ih
      · simp
      · intro p hp
        rcases List.mem_append.mp hp with h | h
        · exact h2 p h
        · simp only [List.mem_singleton] at h
          rw [h]
          exact hbuf
      · exact List.Pairwise.sublist (List.sublist_append_right _ _) h3
      · intro p hp a ha b hb
        rcases List.mem_append.mp hp with h | h
        · exact h4 p h a ha b (List.mem_append_right _ hb)
        · simp only [List.mem_singleton] at h
          subst h
          exact le_of_lt ((List.pairwise_append.mp h3).2.2 a ha b hb)
      · apply chain_snoc s.pages s.buf h5 h2 hbuf
        intro p hp a ha b hb
        exact h4 p hp a ha b (List.mem_append_left _ hb)
      · rw [hvval, List.map_append]
        exact (List.getLastD_concat _ _ _).symm
    · have hstep : importStep env mt ff limit s m = .ok
          { s with count := s.count + 1, buf := s.buf ++ [m] } := by
        simp [importStep, hc]
      rw [List.foldlM_cons, hstep, except_bind_ok]
      apply ih
      · simp
        omega
      · exact h2
      · simpa [List.append_assoc] using h3
      · intro p hp a ha b hb
        apply h4 p hp a ha
        simpa [List.append_assoc] using hb
      · exact h5
      · exact h6

/-- C9: under the precondition that the stream arrives in strictly
increasing id order (and that re-fetch preserves ids, the Message Source
contract), the run succeeds, the successive cursors set by the page
dispatches — the page maxima — are non-decreasing, the final cursor is
the last page's max (or the initial cursor when no page was dispatched),
and an empty stream leaves the cursor unchanged with no page
dispatched. -/
theorem c9_cursor_monotone
    (env : Env) (mt : List String) (ff : String → List String)
    (limit c0 : Nat) (stream : List Message) (hlim : 1 ≤ limit)
    (hre : ∀ c i, (env.refetch c i).message_id = i)
    (hsort : stream.Pairwise (fun a b => a.message_id < b.message_id)) :
    ∃ s, begin_import env mt ff limit c0 stream = .ok s ∧
      List.Chain' (· ≤ ·) (s.pages.map pageMaxD) ∧
      s.cursor = (s.pages.map pageMaxD).getLastD c0 ∧
      (stream = [] → s.cursor = c0 ∧ s.pages = []) := by
  obtain ⟨s', hfold, h1, h2, h3, h4, h5, h6⟩ :=
    import_fold_inv9 env mt ff limit c0 hlim hre stream ⟨0, [], c0, {}, []⟩
      (by simp) (by simp) (by simpa using hsort) (by simp) (by simp) (by simp)
  simp only [begin_import, hfold, except_bind_ok]
  by_cases hb : s'.buf.length ≠ 0
  · have hbuf : s'.buf ≠ [] := by
      intro h
      rw [h] at hb
      simp at hb
    have hmapne : s'.buf.map (·.message_id) ≠ [] := fun h =>
      hbuf (List.map_eq_nil_iff.mp h)
    obtain ⟨v, hv⟩ := pyMax_eq_some hmapne
    have hsnd : (process_messages env mt ff s'.buf s'.trace).2 = some v := by
      rw [process_messages_snd env mt ff hre, hv]
    have hvval : v = pageMaxD s'.buf := by
      rw [pageMaxD, hv]
      simp
    rw [if_pos hb]
    simp only [hsnd]
    refine ⟨_, rfl, ?_, ?_, ?_⟩
    · exact chain_snoc s'.pages s'.buf h5 h2 hbuf h4
    · show v = ((s'.pages ++ [s'.buf]).map pageMaxD).getLastD c0
      rw [hvval, List.map_append]
      exact (List.getLastD_concat _ _ _).symm
    · intro hstream
      exfalso
      apply hbuf
      subst hstream
      have hinit : List.foldlM (importStep env mt ff limit)
          (⟨0, [], c0, {}, []⟩ : ImportState) ([] : List Message) =
          .ok ⟨0, [], c0, {}, []⟩ := rfl
      rw [hinit] at hfold
      rw [← Except.ok.inj hfold]
  · rw [if_neg hb]
    refine ⟨s', rfl, h5, h6, ?_⟩
    intro hstream
    subst hstream
    have hinit : List.foldlM (importStep env mt ff limit)
        (⟨0, [], c0, {}, []⟩ : ImportState) ([] : List Message) =
        .ok ⟨0, [], c0, {}, []⟩ := rfl
    rw [hinit] at hfold
    rw [← Except.ok.inj hfold]
    exact ⟨rfl, rfl⟩

/-- Witness for C9 on a concrete increasing two-message stream. -/
theorem c9_witness :
    ∃ s, begin_import envNone ["photo"] ffAll 1 0 [mkMsg 1, mkMsg 2] = .ok s ∧
      List.Chain' (· ≤ ·) (s.pages.map pageMaxD) ∧
      s.cursor = (s.pages.map pageMaxD).getLastD 0 ∧
      ([mkMsg 1, mkMsg 2] = ([] : List Message) → s.cursor = 0 ∧ s.pages = []) :=
  c9_cursor_monotone envNone ["photo"] ffAll 1 0 [mkMsg 1, mkMsg 2]
    (by decide) (fun _ _ => rfl)
    (by simp [List.pairwise_cons, mkMsg])
